import Mathlib

/-!
# USRP voice player: receive loop of `usrp_player_oto.go`

A shallow embedding of the receive / decode / play loop of `main`
(`src/usrp_player_oto.go`, lines 75-132) and the properties of the packet
decode pipeline.

* A byte is a `Fin 256`; a Go `[]byte` is a `List Byte`.
* Go `int` and `uint32` values are natural numbers (integers where the source
  subtracts); a parsed `uint32` is the big-endian value of its four bytes.
* The calls into the standard library and into the audio library are modelled
  by their documented behaviour: `binary.Read` on a fixed-size struct,
  `conn.ReadFromUDP`, slice expressions (which panic when out of range) and
  `player.Write` (whose result is an input of the iteration).
-/

namespace USRP

/-! ## Constants (source lines 16-29) -/

/-- One octet. -/
abbrev Byte := Fin 256

/-- USRP packet header is 32 bytes (`headerSize = 32`). -/
def headerSize : Nat := 32

/-- Samples per voice frame (`numSamples = 160`). -/
def numSamples : Nat := 160

/-- Bytes per sample (`sampleSize = 2`). -/
def sampleSize : Nat := 2

/-- Voice payload size (`usrpVoiceFrameSize = numSamples * sampleSize`). -/
def usrpVoiceFrameSize : Nat := numSamples * sampleSize

/-- Payload type of a voice packet (`USRP_TYPE_VOICE = 0`). -/
def USRP_TYPE_VOICE : Nat := 0

/-- Length of the receive buffer: `packetBuf := make([]byte, 1024)` (line 76). -/
def packetBufLen : Nat := 1024

/-- The ASCII bytes of the string literal `"USRP"` compared with at line 99. -/
def usrpEye : List Byte := [0x55, 0x53, 0x52, 0x50]

/-! ## Header (source lines 31-42) -/

/-- The struct `USRPHeader`: `Eye [4]byte` and seven `uint32` fields. The field
`Type` of the source is written `Type_`. -/
structure USRPHeader where
  Eye : List Byte
  Seq : Nat
  Memory : Nat
  Keyup : Nat
  Talkgroup : Nat
  Type_ : Nat
  Mpxid : Nat
  Reserved : Nat
deriving DecidableEq

/-- The value `binary.BigEndian.Uint32` gives to the four bytes of `r` starting at
offset `off`. -/
def beUint32 (r : List Byte) (off : Nat) : Nat :=
  (r.getD off 0).val * 2 ^ 24 + (r.getD (off + 1) 0).val * 2 ^ 16
    + (r.getD (off + 2) 0).val * 2 ^ 8 + (r.getD (off + 3) 0).val

/-- Number of bytes `binary.Read` consumes for a `USRPHeader`: four bytes of `Eye`
and seven `uint32`. -/
def usrpHeaderWireSize : Nat := 4 + 7 * 4

/-- The call `binary.Read(r, binary.BigEndian, &hdr)` of line 93 on a reader
holding the bytes `r`: it fails (`none`) when the reader holds fewer bytes than the
struct needs, and otherwise fills the fields in declaration order, every integer
big-endian. -/
def binaryRead (r : List Byte) : Option USRPHeader :=
  if r.length < usrpHeaderWireSize then none
  else some
    { Eye := r.take 4
      Seq := beUint32 r 4
      Memory := beUint32 r 8
      Keyup := beUint32 r 12
      Talkgroup := beUint32 r 16
      Type_ := beUint32 r 20
      Mpxid := beUint32 r 24
      Reserved := beUint32 r 28 }

/-- A Go slice expression `s[lo:hi]` on a slice whose capacity is its length:
a run-time panic (`none`) unless `lo ≤ hi ≤ len(s)`. -/
def goSlice (s : List Byte) (lo hi : Nat) : Option (List Byte) :=
  if lo ≤ hi ∧ hi ≤ s.length then some ((s.take hi).drop lo) else none

/-! ## Decode step of the loop body (source lines 85-118) -/

/-- How the loop body disposes of a received datagram, one constructor per exit of
lines 85-118. -/
inductive DecodeResult where
  /-- Exit at line 85: `n < headerSize`. -/
  | TooShortForHeader
  /-- Exit at line 93: `binary.Read` returned an error. -/
  | HeaderReadError
  /-- Exit at line 99: `string(hdr.Eye[:]) != "USRP"`. -/
  | BadSignature
  /-- Exit at line 105: `hdr.Type != USRP_TYPE_VOICE`. -/
  | NonVoicePacket
  /-- Exit at line 112: `payloadLen < usrpVoiceFrameSize`. -/
  | IncompletePayload
  /-- The voice payload was extracted, line 118. -/
  | Voice (hdr : USRPHeader) (voiceData : List Byte)
  /-- A slice expression was out of range: run-time panic. -/
  | SlicePanic
deriving DecidableEq

/-- Result of the decode step together with the ranges `[lo, hi)` of `packetBuf`
that the slice expressions evaluated so far have read. -/
structure Decoded where
  result : DecodeResult
  reads : List (Nat × Nat)
deriving DecidableEq

/-- Lines 85-118 of `main`: the checks and the extraction performed on the receive
buffer `packetBuf` after `ReadFromUDP` returned the length `n` without error. -/
def decode (packetBuf : List Byte) (n : Nat) : Decoded :=
  if n < headerSize then ⟨.TooShortForHeader, []⟩
  else
    match goSlice packetBuf 0 headerSize with
    | none => ⟨.SlicePanic, []⟩
    | some r =>
      match binaryRead r with
      | none => ⟨.HeaderReadError, [(0, headerSize)]⟩
      | some hdr =>
        if hdr.Eye ≠ usrpEye then ⟨.BadSignature, [(0, headerSize)]⟩
        else if hdr.Type_ ≠ USRP_TYPE_VOICE then ⟨.NonVoicePacket, [(0, headerSize)]⟩
        else
          let payloadLen : Int := (n : Int) - (headerSize : Int)
          if payloadLen < (usrpVoiceFrameSize : Int) then
            ⟨.IncompletePayload, [(0, headerSize)]⟩
          else
            match goSlice packetBuf headerSize (headerSize + usrpVoiceFrameSize) with
            | none => ⟨.SlicePanic, [(0, headerSize)]⟩
            | some voiceData =>
              ⟨.Voice hdr voiceData,
                [(0, headerSize), (headerSize, headerSize + usrpVoiceFrameSize)]⟩

/-! ## The loop (source lines 78-132) -/

/-- What `conn.ReadFromUDP(packetBuf)` returns: an error, or one datagram. -/
inductive RecvResult where
  | error
  | datagram (d : List Byte)
deriving DecidableEq

/-- Environment of one iteration: the result of the receive call and whether
`player.Write` succeeds in case the iteration calls it. -/
structure Event where
  recv : RecvResult
  writeOk : Bool
deriving DecidableEq

/-- The successful call `conn.ReadFromUDP(packetBuf)` for the datagram `d`: its
bytes overwrite the front of the buffer, the rest of the buffer keeps its previous
contents, and the number of bytes stored is returned. A datagram longer than the
buffer is cut to the length of the buffer, as a datagram socket does. -/
def readFromUDP (packetBuf d : List Byte) : List Byte × Nat :=
  let n := min d.length packetBuf.length
  (d.take n ++ packetBuf.drop n, n)

/-- Control state of the process while it is in the loop. -/
inductive Ctl where
  /-- At the head of the `for` loop, about to call `ReadFromUDP`. -/
  | AwaitingPacket
  /-- Stopped by a run-time panic. -/
  | Panicked
deriving DecidableEq

/-- State of the loop: control state, contents of the reused receive buffer, and
the arguments of all calls of `player.Write` so far, oldest first. -/
structure LoopState where
  ctl : Ctl
  packetBuf : List Byte
  written : List (List Byte)
deriving DecidableEq

/-- State on entry to the loop: a zeroed buffer of 1024 bytes, nothing written. -/
def initState : LoopState :=
  ⟨.AwaitingPacket, List.replicate packetBufLen 0, []⟩

/-- What one iteration did: the decode result (`none` when the receive failed),
the argument of the call of `player.Write` (`none` when it was not called), and
whether that call returned an error. -/
structure Iteration where
  decoded : Option DecodeResult
  writeArg : Option (List Byte)
  writeFailed : Bool
deriving DecidableEq

/-- One iteration of the `for` loop (lines 79-131) from state `s` under the
environment `e`. Every `continue` and the end of the body lead back to the head of
the loop; only a panic leaves it. A failed receive is taken to leave the buffer as
it was; a write is recorded with its argument whether or not it succeeds. -/
def loopBody (s : LoopState) (e : Event) : LoopState × Iteration :=
  match s.ctl with
  | .Panicked => (s, ⟨none, none, false⟩)
  | .AwaitingPacket =>
    match e.recv with
    | .error => (s, ⟨none, none, false⟩)
    | .datagram d =>
      let (buf, n) := readFromUDP s.packetBuf d
      match (decode buf n).result with
      | .Voice hdr voiceData =>
        (⟨.AwaitingPacket, buf, s.written ++ [voiceData]⟩,
          ⟨some (.Voice hdr voiceData), some voiceData, !e.writeOk⟩)
      | .SlicePanic => (⟨.Panicked, buf, s.written⟩, ⟨some .SlicePanic, none, false⟩)
      | r => (⟨.AwaitingPacket, buf, s.written⟩, ⟨some r, none, false⟩)

/-- State after one iteration. -/
def step (s : LoopState) (e : Event) : LoopState := (loopBody s e).1

/-- State after the iterations driven by the events `es`, in order. -/
def run (s : LoopState) (es : List Event) : LoopState := es.foldl step s

/-- Decode result of the datagram `d` received into the buffer `packetBuf`. -/
def decodeDatagram (packetBuf d : List Byte) : Decoded :=
  decode (readFromUDP packetBuf d).1 (readFromUDP packetBuf d).2

/-! ## Notions used to state the properties -/

/-- The header that `binary.Read` produces from the first 32 bytes of `b`,
expressed on `b` itself. -/
def parsedHeader (b : List Byte) : USRPHeader :=
  { Eye := b.take 4
    Seq := beUint32 b 4
    Memory := beUint32 b 8
    Keyup := beUint32 b 12
    Talkgroup := beUint32 b 16
    Type_ := beUint32 b 20
    Mpxid := beUint32 b 24
    Reserved := beUint32 b 28 }

/-- Bytes `[32:352)` of `d`. -/
def voicePayload (d : List Byte) : List Byte :=
  (d.take (headerSize + usrpVoiceFrameSize)).drop headerSize

/-- A well-formed voice datagram: at least 352 bytes, first four bytes `"USRP"`,
and the big-endian `uint32` at bytes 20..23 equal to 0. -/
def isVoiceDatagram (d : List Byte) : Prop :=
  headerSize + usrpVoiceFrameSize ≤ d.length ∧ d.take 4 = usrpEye
    ∧ beUint32 d 20 = USRP_TYPE_VOICE

instance (d : List Byte) : Decidable (isVoiceDatagram d) := by
  unfold isVoiceDatagram; infer_instance

/-- The events of a run in which every receive succeeds: each pair is a datagram
and the success of the write made for it. -/
def eventsOf (ds : List (List Byte × Bool)) : List Event :=
  ds.map fun p => ⟨.datagram p.1, p.2⟩

/-! ## Synthetic packets -/

/-- The four big-endian bytes of the `uint32` value `v`. -/
def putUint32 (v : Nat) : List Byte :=
  [⟨v / 2 ^ 24 % 256, Nat.mod_lt _ (by decide)⟩, ⟨v / 2 ^ 16 % 256, Nat.mod_lt _ (by decide)⟩,
   ⟨v / 2 ^ 8 % 256, Nat.mod_lt _ (by decide)⟩, ⟨v % 256, Nat.mod_lt _ (by decide)⟩]

/-- A packet as a sender builds it: `"USRP"`, the seven header fields each as four
big-endian bytes, then the samples. -/
def buildPacket (seq memory keyup talkgroup type_ mpxid reserved : Nat)
    (samples : List Byte) : List Byte :=
  usrpEye ++ putUint32 seq ++ putUint32 memory ++ putUint32 keyup ++ putUint32 talkgroup
    ++ putUint32 type_ ++ putUint32 mpxid ++ putUint32 reserved ++ samples

/-- The scenario header `seq=1, mem=0, keyup=1, tg=100`, with the given payload
type, followed by 320 zero bytes. -/
def scenarioPacket (type_ : Nat) : List Byte :=
  buildPacket 1 0 1 100 type_ 0 0 (List.replicate 320 0)

/-- Two voice datagrams whose declared sequence numbers (2, then 1) run against the
order of reception; the write for the first succeeds, the write for the second
fails. -/
def outOfOrderPair : List (List Byte × Bool) :=
  [(buildPacket 2 0 1 100 0 0 0 (List.replicate 320 1), true),
   (buildPacket 1 0 1 100 0 0 0 (List.replicate 320 0), false)]

/-- A buffer left behind by an earlier, longer datagram: the scenario packet with
payload type 0 stored at the front of a buffer of 1024 bytes `0xff`. -/
def staleBuf : List Byte :=
  (readFromUDP (List.replicate packetBufLen 0xff) (scenarioPacket 0)).1

/-- A 24-byte datagram: `"USRP"` followed by 20 zero bytes, so that the payload
type field at bytes 20..23 is present and equal to 0 but the header is not
complete. -/
def truncatedHeader : List Byte := usrpEye ++ List.replicate 20 0

end USRP

namespace USRP

/-! ## Auxiliary facts about slices and big-endian reads -/

theorem goSlice_of_le (s : List Byte) (lo hi : Nat) (h1 : lo ≤ hi) (h2 : hi ≤ s.length) :
    goSlice s lo hi = some ((s.take hi).drop lo) := by
  simp [goSlice, h1, h2]

theorem getD_take (r : List Byte) (k i : Nat) (h : i < k) :
    (r.take k).getD i 0 = r.getD i 0 := by
  simp [List.getD_eq_getElem?_getD, List.getElem?_take, h]

theorem beUint32_take (r : List Byte) (k off : Nat) (h : off + 4 ≤ k) :
    beUint32 (r.take k) off = beUint32 r off := by
  unfold beUint32
  rw [getD_take r k off (by omega), getD_take r k (off + 1) (by omega),
    getD_take r k (off + 2) (by omega), getD_take r k (off + 3) (by omega)]

theorem beUint32_lt (r : List Byte) (off : Nat) : beUint32 r off < 2 ^ 32 := by
  unfold beUint32
  have h0 := (r.getD off 0).isLt
  have h1 := (r.getD (off + 1) 0).isLt
  have h2 := (r.getD (off + 2) 0).isLt
  have h3 := (r.getD (off + 3) 0).isLt
  omega

/-- Closed form of the decode step on a buffer that holds at least `n` bytes. -/
theorem decode_eq (b : List Byte) (n : Nat) (hn : n ≤ b.length) :
    decode b n =
      if n < 32 then ⟨.TooShortForHeader, []⟩
      else if b.take 4 ≠ usrpEye then ⟨.BadSignature, [(0, 32)]⟩
      else if beUint32 b 20 ≠ 0 then ⟨.NonVoicePacket, [(0, 32)]⟩
      else if n < 352 then ⟨.IncompletePayload, [(0, 32)]⟩
      else ⟨.Voice (parsedHeader b) (voicePayload b), [(0, 32), (32, 352)]⟩ := by
  unfold decode
  by_cases h32 : n < 32
  · simp [headerSize, h32]
  · have hlen : 32 ≤ b.length := by omega
    have hs : goSlice b 0 32 = some (b.take 32) := by
      rw [goSlice_of_le b 0 32 (Nat.zero_le _) hlen]
      simp
    have hr : binaryRead (b.take 32) = some (parsedHeader b) := by
      have hl : (b.take 32).length = 32 := by simp [List.length_take, hlen]
      simp [binaryRead, usrpHeaderWireSize, hl, parsedHeader, beUint32_take, List.take_take]
    have hc : (32 + 160 * 2 : Nat) = 352 := by norm_num
    simp only [headerSize, usrpVoiceFrameSize, numSamples, sampleSize, USRP_TYPE_VOICE, hc, hs,
      hr, h32, if_false]
    by_cases he : b.take 4 = usrpEye
    · by_cases ht : beUint32 b 20 = 0
      · by_cases h352 : n < 352
        · have h1 : (n : Int) - ((32 : Nat) : Int) < ((160 * 2 : Nat) : Int) := by
            push_cast; omega
          have he2 : (parsedHeader b).Eye = usrpEye := he
          have ht2 : (parsedHeader b).Type_ = 0 := ht
          simp only [he2, ht2, he, ht, h352, h1, ne_eq, not_true_eq_false, if_false, if_true]
        · have h1 : ¬ ((n : Int) - ((32 : Nat) : Int) < ((160 * 2 : Nat) : Int)) := by
            push_cast; omega
          have h2 : goSlice b 32 352 = some (voicePayload b) := by
            rw [goSlice_of_le b 32 352 (by norm_num) (by omega)]
            simp [voicePayload, headerSize, usrpVoiceFrameSize, numSamples, sampleSize]
          have he2 : (parsedHeader b).Eye = usrpEye := he
          have ht2 : (parsedHeader b).Type_ = 0 := ht
          simp only [he2, ht2, he, ht, h352, h1, h2, ne_eq, not_true_eq_false, if_false]
      · have ht2 : ¬ (parsedHeader b).Type_ = 0 := ht
        have he2 : (parsedHeader b).Eye = usrpEye := he
        simp only [he2, ht2, he, ht, ne_eq, not_true_eq_false, not_false_eq_true, if_false,
          if_true]
    · have he2 : ¬ (parsedHeader b).Eye = usrpEye := he
      simp only [he2, he, ne_eq, not_false_eq_true, if_true]

theorem parsedHeader_Eye (d : List Byte) : (parsedHeader d).Eye = d.take 4 := rfl

theorem parsedHeader_Type (d : List Byte) : (parsedHeader d).Type_ = beUint32 d 20 := rfl

theorem beUint32_congr (b d : List Byte) (k off : Nat) (h : b.take k = d.take k)
    (hk : off + 4 ≤ k) : beUint32 b off = beUint32 d off := by
  rw [← beUint32_take b k off hk, h, beUint32_take d k off hk]

theorem parsedHeader_congr (b d : List Byte) (h : b.take 32 = d.take 32) :
    parsedHeader b = parsedHeader d := by
  have h4 : b.take 4 = d.take 4 := by
    have := congrArg (List.take 4) h
    simpa [List.take_take] using this
  simp only [parsedHeader, h4, beUint32_congr b d 32 4 h (by norm_num),
    beUint32_congr b d 32 8 h (by norm_num), beUint32_congr b d 32 12 h (by norm_num),
    beUint32_congr b d 32 16 h (by norm_num), beUint32_congr b d 32 20 h (by norm_num),
    beUint32_congr b d 32 24 h (by norm_num), beUint32_congr b d 32 28 h (by norm_num)]

theorem take_congr (b d : List Byte) (k n : Nat) (h : b.take n = d.take n) (hk : k ≤ n) :
    b.take k = d.take k := by
  have := congrArg (List.take k) h
  simpa [List.take_take, Nat.min_eq_left hk] using this

theorem voicePayload_congr (b d : List Byte) (h : b.take 352 = d.take 352) :
    voicePayload b = voicePayload d := by
  simp only [voicePayload, headerSize, usrpVoiceFrameSize, numSamples, sampleSize]
  rw [show (32 + 160 * 2 : Nat) = 352 by norm_num, h]

/-- The decode step reads its input only through the first `n` bytes of the buffer. -/
theorem decode_congr (b d : List Byte) (n : Nat) (hb : n ≤ b.length) (hd : n ≤ d.length)
    (h : b.take n = d.take n) : decode b n = decode d n := by
  rw [decode_eq b n hb, decode_eq d n hd]
  by_cases h32 : n < 32
  · simp [h32]
  · have e32 := take_congr b d 32 n h (by omega)
    have e4 := take_congr b d 4 n h (by omega)
    rw [e4, beUint32_congr b d 32 20 e32 (by norm_num), parsedHeader_congr b d e32]
    by_cases h352 : n < 352
    · simp [h352]
    · rw [voicePayload_congr b d (take_congr b d 352 n h (by omega))]

theorem readFromUDP_snd (stale d : List Byte) :
    (readFromUDP stale d).2 = min d.length stale.length := rfl

theorem readFromUDP_length (stale d : List Byte) :
    (readFromUDP stale d).1.length = stale.length := by
  simp only [readFromUDP, List.length_append, List.length_take, List.length_drop]
  omega

theorem readFromUDP_take (stale d : List Byte) :
    (readFromUDP stale d).1.take (readFromUDP stale d).2
      = d.take (min d.length stale.length) := by
  simp only [readFromUDP]
  rw [List.take_append_of_le_length (by simp [List.length_take])]
  simp [List.take_take]

/-- Closed form of the decode result of a datagram received into a 1024-byte
buffer, in terms of the datagram alone. -/
theorem decodeDatagram_eq (stale d : List Byte) (hs : stale.length = packetBufLen) :
    decodeDatagram stale d =
      if d.length < 32 then ⟨.TooShortForHeader, []⟩
      else if d.take 4 ≠ usrpEye then ⟨.BadSignature, [(0, 32)]⟩
      else if beUint32 d 20 ≠ 0 then ⟨.NonVoicePacket, [(0, 32)]⟩
      else if d.length < 352 then ⟨.IncompletePayload, [(0, 32)]⟩
      else ⟨.Voice (parsedHeader d) (voicePayload d), [(0, 32), (32, 352)]⟩ := by
  have hL : stale.length = 1024 := hs
  unfold decodeDatagram
  have hn : (readFromUDP stale d).2 = min d.length 1024 := by rw [readFromUDP_snd, hL]
  have hlen : (readFromUDP stale d).1.length = 1024 := by rw [readFromUDP_length, hL]
  have ht := readFromUDP_take stale d
  rw [hL] at ht
  rw [hn] at ht ⊢
  have hcong := decode_congr (readFromUDP stale d).1 (d.take (min d.length 1024))
    (min d.length 1024) (by omega) (by simp [List.length_take])
    (by rw [ht]; simp [List.take_take])
  rw [hcong, decode_eq _ _ (by simp [List.length_take])]
  have hself : (d.take (min d.length 1024)).take (min d.length 1024) = d.take (min d.length 1024) := by
    simp [List.take_take]
  by_cases h32 : d.length < 32
  · have : min d.length 1024 < 32 := by omega
    simp [h32, this]
  · have h32n : ¬ min d.length 1024 < 32 := by omega
    have e32 : (d.take (min d.length 1024)).take 32 = d.take 32 := by
      rw [List.take_take]; congr 1; omega
    have e4 : (d.take (min d.length 1024)).take 4 = d.take 4 := by
      rw [List.take_take]; congr 1; omega
    rw [e4, beUint32_take d _ 20 (by omega)]
    simp only [h32, h32n, if_false]
    have hp : parsedHeader (d.take (min d.length 1024)) = parsedHeader d :=
      parsedHeader_congr _ _ e32
    by_cases h352 : d.length < 352
    · have : min d.length 1024 < 352 := by omega
      simp [h352, this]
    · have h352n : ¬ min d.length 1024 < 352 := by omega
      have e352 : (d.take (min d.length 1024)).take 352 = d.take 352 := by
        rw [List.take_take]; congr 1; omega
      rw [hp, voicePayload_congr _ d e352]
      simp only [h352, h352n, if_false]

theorem voicePayload_eq (d : List Byte) : voicePayload d = (d.take 352).drop 32 := rfl

theorem voicePayload_length (d : List Byte) (h : 352 ≤ d.length) :
    ((d.take 352).drop 32).length = 320 := by
  simp only [List.length_drop, List.length_take]
  omega

theorem isVoiceDatagram_iff (d : List Byte) :
    isVoiceDatagram d ↔ 352 ≤ d.length ∧ d.take 4 = usrpEye ∧ beUint32 d 20 = 0 := Iff.rfl

/-- The decode result of a well-formed voice datagram. -/
theorem decodeDatagram_voice (stale d : List Byte) (hs : stale.length = packetBufLen)
    (hv : isVoiceDatagram d) :
    decodeDatagram stale d
      = ⟨.Voice (parsedHeader d) ((d.take 352).drop 32), [(0, 32), (32, 352)]⟩ := by
  obtain ⟨h1, h2, h3⟩ := (isVoiceDatagram_iff d).1 hv
  rw [decodeDatagram_eq stale d hs, voicePayload_eq]
  have a : ¬ d.length < 32 := by omega
  have b : ¬ d.length < 352 := by omega
  simp [a, b, h2, h3]

/-- The decode result of any other datagram is not a voice frame and not a panic. -/
theorem decodeDatagram_not_voice (stale d : List Byte) (hs : stale.length = packetBufLen)
    (hv : ¬ isVoiceDatagram d) :
    (decodeDatagram stale d).result = .TooShortForHeader
      ∨ (decodeDatagram stale d).result = .BadSignature
      ∨ (decodeDatagram stale d).result = .NonVoicePacket
      ∨ (decodeDatagram stale d).result = .IncompletePayload := by
  rw [decodeDatagram_eq stale d hs]
  by_cases a : d.length < 32
  · simp [a]
  · by_cases b : d.take 4 = usrpEye
    · by_cases c : beUint32 d 20 = 0
      · by_cases e : d.length < 352
        · simp [a, b, c, e]
        · exact absurd ((isVoiceDatagram_iff d).2 ⟨by omega, b, c⟩) hv
      · simp [a, b, c]
    · simp [a, b]

/-- One iteration on a well-formed voice datagram. -/
theorem loopBody_voice (s : LoopState) (d : List Byte) (ok : Bool)
    (hc : s.ctl = .AwaitingPacket) (hs : s.packetBuf.length = packetBufLen)
    (hv : isVoiceDatagram d) :
    loopBody s ⟨.datagram d, ok⟩
      = (⟨.AwaitingPacket, (readFromUDP s.packetBuf d).1,
            s.written ++ [(d.take 352).drop 32]⟩,
          ⟨some (.Voice (parsedHeader d) ((d.take 352).drop 32)),
            some ((d.take 352).drop 32), !ok⟩) := by
  have h := decodeDatagram_voice s.packetBuf d hs hv
  unfold decodeDatagram at h
  simp only [loopBody, hc, h]

/-- One iteration on any other datagram. -/
theorem loopBody_not_voice (s : LoopState) (d : List Byte) (ok : Bool)
    (hc : s.ctl = .AwaitingPacket) (hs : s.packetBuf.length = packetBufLen)
    (hv : ¬ isVoiceDatagram d) :
    loopBody s ⟨.datagram d, ok⟩
      = (⟨.AwaitingPacket, (readFromUDP s.packetBuf d).1, s.written⟩,
          ⟨some (decodeDatagram s.packetBuf d).result, none, false⟩) := by
  have h := decodeDatagram_not_voice s.packetBuf d hs hv
  unfold decodeDatagram at h ⊢
  simp only [loopBody, hc]
  rcases h with h | h | h | h <;> simp only [h]

/-! ## Properties of the decode step -/

set_option maxRecDepth 100000

/-- C1: a datagram of at least 352 bytes with signature `"USRP"` and payload type 0
decodes successfully; the extracted payload is exactly bytes `[32:352)` of the
datagram, it is 320 bytes long, and every datagram that agrees with it on the first
352 bytes (in particular the datagram with bytes appended) decodes to the same
result, whatever the previous contents of the receive buffer. -/
theorem voice_payload_is_bytes_32_to_352 (stale d : List Byte)
    (hs : stale.length = packetBufLen) (hsig : d.take 4 = usrpEye)
    (htype : beUint32 d 20 = USRP_TYPE_VOICE) (hlen : 352 ≤ d.length) :
    (decodeDatagram stale d).result = .Voice (parsedHeader d) ((d.take 352).drop 32)
      ∧ ((d.take 352).drop 32).length = 320
      ∧ (∀ stale2 d2 : List Byte, stale2.length = packetBufLen → d2.take 352 = d.take 352 →
          (decodeDatagram stale2 d2).result = (decodeDatagram stale d).result)
      ∧ (∀ extra : List Byte,
          (decodeDatagram stale (d ++ extra)).result = (decodeDatagram stale d).result) := by
  have hv : isVoiceDatagram d := (isVoiceDatagram_iff d).2 ⟨hlen, hsig, htype⟩
  have key : ∀ stale2 d2 : List Byte, stale2.length = packetBufLen →
      d2.take 352 = d.take 352 →
      (decodeDatagram stale2 d2).result = (decodeDatagram stale d).result := by
    intro stale2 d2 hs2 h
    have hl2 : 352 ≤ d2.length := by
      have := congrArg List.length h
      simp only [List.length_take] at this
      omega
    have hv2 : isVoiceDatagram d2 :=
      (isVoiceDatagram_iff d2).2 ⟨hl2, by rw [take_congr d2 d 4 352 h (by norm_num), hsig],
        by rw [beUint32_congr d2 d 352 20 h (by norm_num)]; exact htype⟩
    rw [decodeDatagram_voice stale2 d2 hs2 hv2, decodeDatagram_voice stale d hs hv,
      parsedHeader_congr d2 d (take_congr d2 d 32 352 h (by norm_num)), h]
  refine ⟨by rw [decodeDatagram_voice stale d hs hv], voicePayload_length d hlen, key, ?_⟩
  intro extra
  exact key stale (d ++ extra) hs (List.take_append_of_le_length hlen)

/-- C1 at the 352-byte scenario packet received into the zeroed buffer. -/
theorem voice_payload_is_bytes_32_to_352_witness :
    initState.packetBuf.length = packetBufLen
      ∧ (scenarioPacket 0).take 4 = usrpEye
      ∧ beUint32 (scenarioPacket 0) 20 = USRP_TYPE_VOICE
      ∧ 352 ≤ (scenarioPacket 0).length
      ∧ (decodeDatagram initState.packetBuf (scenarioPacket 0)).result
          = .Voice (parsedHeader (scenarioPacket 0)) (((scenarioPacket 0).take 352).drop 32)
      ∧ (((scenarioPacket 0).take 352).drop 32).length = 320 :=
  have h := voice_payload_is_bytes_32_to_352 initState.packetBuf (scenarioPacket 0)
    (by decide) (by decide) (by decide) (by decide)
  ⟨by decide, by decide, by decide, by decide, h.1, h.2.1⟩

/-- C2: a datagram shorter than 32 bytes (the empty one included) is rejected as
`TooShortForHeader` at the length check: no range of the buffer has been read, the
iteration calls no write and leaves the list of writes unchanged, and the loop is
back at its head. -/
theorem short_datagram_too_short (s : LoopState) (d : List Byte) (ok : Bool)
    (hc : s.ctl = .AwaitingPacket) (hs : s.packetBuf.length = packetBufLen)
    (hlen : d.length < 32) :
    decodeDatagram s.packetBuf d = ⟨.TooShortForHeader, []⟩
      ∧ (loopBody s ⟨.datagram d, ok⟩).2 = ⟨some .TooShortForHeader, none, false⟩
      ∧ (step s ⟨.datagram d, ok⟩).written = s.written
      ∧ (step s ⟨.datagram d, ok⟩).ctl = .AwaitingPacket := by
  have hd : decodeDatagram s.packetBuf d = ⟨.TooShortForHeader, []⟩ := by
    rw [decodeDatagram_eq s.packetBuf d hs]; simp [hlen]
  have hv : ¬ isVoiceDatagram d := fun h => by
    have := ((isVoiceDatagram_iff d).1 h).1; omega
  have hb := loopBody_not_voice s d ok hc hs hv
  rw [hd] at hb
  refine ⟨hd, by rw [hb], ?_, ?_⟩ <;> simp only [step, hb]

/-- C2 at the empty datagram received in the initial state. -/
theorem short_datagram_too_short_witness :
    initState.ctl = .AwaitingPacket ∧ initState.packetBuf.length = packetBufLen
      ∧ ([] : List Byte).length < 32
      ∧ decodeDatagram initState.packetBuf [] = ⟨.TooShortForHeader, []⟩
      ∧ (step initState ⟨.datagram [], true⟩).written = initState.written :=
  have h := short_datagram_too_short initState [] true rfl (by decide) (by decide)
  ⟨rfl, by decide, by decide, h.1, h.2.2.1⟩

/-- C3: a datagram of at least 32 bytes whose first four bytes are not `"USRP"` is
rejected as `BadSignature`, whatever its other bytes and its length. -/
theorem wrong_eye_bad_signature (stale d : List Byte) (hs : stale.length = packetBufLen)
    (hlen : 32 ≤ d.length) (hsig : d.take 4 ≠ usrpEye) :
    (decodeDatagram stale d).result = .BadSignature := by
  rw [decodeDatagram_eq stale d hs]
  have a : ¬ d.length < 32 := by omega
  simp [a, hsig]

/-- C3 at a 352-byte datagram of zero bytes, whose payload type field is 0. -/
theorem wrong_eye_bad_signature_witness :
    initState.packetBuf.length = packetBufLen ∧ 32 ≤ (List.replicate 352 (0 : Byte)).length
      ∧ (List.replicate 352 (0 : Byte)).take 4 ≠ usrpEye
      ∧ (decodeDatagram initState.packetBuf (List.replicate 352 0)).result = .BadSignature :=
  ⟨by decide, by decide, by decide,
    wrong_eye_bad_signature initState.packetBuf (List.replicate 352 0) (by decide) (by decide)
      (by decide)⟩

/-- C4, as stated, fails: the 24-byte datagram `"USRP"` + 20 zero bytes has a valid
signature, payload type field 0 and length below 352, and is rejected as
`TooShortForHeader`, not as `IncompletePayload`. -/
theorem incomplete_payload_counterexample :
    truncatedHeader.take 4 = usrpEye ∧ 24 ≤ truncatedHeader.length
      ∧ beUint32 truncatedHeader 20 = USRP_TYPE_VOICE ∧ truncatedHeader.length < 352
      ∧ (decodeDatagram initState.packetBuf truncatedHeader).result = .TooShortForHeader
      ∧ (decodeDatagram initState.packetBuf truncatedHeader).result ≠ .IncompletePayload := by
  decide

/-- C4 (amended): a datagram of at least 32 and fewer than 352 bytes with signature
`"USRP"` and payload type 0 is rejected as `IncompletePayload`. -/
theorem incomplete_payload_of_full_header (stale d : List Byte)
    (hs : stale.length = packetBufLen) (hsig : d.take 4 = usrpEye)
    (htype : beUint32 d 20 = USRP_TYPE_VOICE) (hlo : 32 ≤ d.length) (hhi : d.length < 352) :
    (decodeDatagram stale d).result = .IncompletePayload := by
  rw [decodeDatagram_eq stale d hs]
  have a : ¬ d.length < 32 := by omega
  have htype0 : beUint32 d 20 = 0 := htype
  simp [a, hsig, htype0, hhi]

/-- C4 (amended) at the scenario packet cut down to 351 bytes. -/
theorem incomplete_payload_of_full_header_witness :
    initState.packetBuf.length = packetBufLen
      ∧ ((scenarioPacket 0).take 351).take 4 = usrpEye
      ∧ beUint32 ((scenarioPacket 0).take 351) 20 = USRP_TYPE_VOICE
      ∧ 32 ≤ ((scenarioPacket 0).take 351).length
      ∧ ((scenarioPacket 0).take 351).length < 352
      ∧ (decodeDatagram initState.packetBuf ((scenarioPacket 0).take 351)).result
          = .IncompletePayload :=
  ⟨by decide, by decide, by decide, by decide, by decide,
    incomplete_payload_of_full_header initState.packetBuf ((scenarioPacket 0).take 351)
      (by decide) (by decide) (by decide) (by decide) (by decide)⟩

/-- C5: a datagram of at least 32 bytes with signature `"USRP"` and payload type
different from 0 yields `NonVoicePacket`, whatever its length (fewer than 320 payload
bytes or more); the result is never `IncompletePayload`. -/
theorem non_voice_regardless_of_length (stale d : List Byte)
    (hs : stale.length = packetBufLen) (hlen : 32 ≤ d.length) (hsig : d.take 4 = usrpEye)
    (htype : beUint32 d 20 ≠ USRP_TYPE_VOICE) :
    (decodeDatagram stale d).result = .NonVoicePacket
      ∧ (decodeDatagram stale d).result ≠ .IncompletePayload := by
  have h : (decodeDatagram stale d).result = .NonVoicePacket := by
    rw [decodeDatagram_eq stale d hs]
    have a : ¬ d.length < 32 := by omega
    have htype0 : ¬ beUint32 d 20 = 0 := htype
    simp [a, hsig, htype0]
  exact ⟨h, by rw [h]; simp⟩

/-- C5 at the bare 32-byte scenario header with payload type 1. -/
theorem non_voice_regardless_of_length_witness :
    initState.packetBuf.length = packetBufLen ∧ 32 ≤ ((scenarioPacket 1).take 32).length
      ∧ ((scenarioPacket 1).take 32).take 4 = usrpEye
      ∧ beUint32 ((scenarioPacket 1).take 32) 20 ≠ USRP_TYPE_VOICE
      ∧ (decodeDatagram initState.packetBuf ((scenarioPacket 1).take 32)).result
          = .NonVoicePacket :=
  ⟨by decide, by decide, by decide, by decide,
    (non_voice_regardless_of_length initState.packetBuf ((scenarioPacket 1).take 32)
      (by decide) (by decide) (by decide) (by decide)).1⟩

/-! ## Round trip -/

theorem putUint32_val (v : Nat) (hv : v < 2 ^ 32) :
    v / 2 ^ 24 % 256 * 2 ^ 24 + v / 2 ^ 16 % 256 * 2 ^ 16 + v / 2 ^ 8 % 256 * 2 ^ 8 + v % 256
      = v := by
  norm_num at hv ⊢
  omega

theorem parsedHeader_buildPacket (seq memory keyup talkgroup type_ mpxid reserved : Nat)
    (samples : List Byte)
    (h1 : seq < 2 ^ 32) (h2 : memory < 2 ^ 32) (h3 : keyup < 2 ^ 32)
    (h4 : talkgroup < 2 ^ 32) (h5 : type_ < 2 ^ 32) (h6 : mpxid < 2 ^ 32)
    (h7 : reserved < 2 ^ 32) :
    parsedHeader (buildPacket seq memory keyup talkgroup type_ mpxid reserved samples)
      = ⟨usrpEye, seq, memory, keyup, talkgroup, type_, mpxid, reserved⟩ := by
  have e1 := putUint32_val seq h1
  have e2 := putUint32_val memory h2
  have e3 := putUint32_val keyup h3
  have e4 := putUint32_val talkgroup h4
  have e5 := putUint32_val type_ h5
  have e6 := putUint32_val mpxid h6
  have e7 := putUint32_val reserved h7
  simp only [parsedHeader, buildPacket, usrpEye, putUint32, beUint32, List.cons_append,
    List.nil_append, List.getD_cons_succ, List.getD_cons_zero, List.take_succ_cons,
    List.take_zero, e1, e2, e3, e4, e5, e6, e7]

theorem buildPacket_length (a b c e f g h : Nat) (samples : List Byte) :
    (buildPacket a b c e f g h samples).length = 32 + samples.length := by
  simp only [buildPacket, usrpEye, putUint32, List.cons_append, List.nil_append,
    List.length_cons]
  omega

theorem buildPacket_payload (a b c e f g h : Nat) (samples : List Byte)
    (hsm : samples.length = 320) :
    ((buildPacket a b c e f g h samples).take 352).drop 32 = samples := by
  have h320 : List.take 320 samples = samples := by
    rw [← hsm]; exact List.take_length samples
  simp only [buildPacket, usrpEye, putUint32, List.cons_append, List.nil_append,
    List.take_succ_cons, List.drop_succ_cons, List.drop_zero, h320]

/-- C6: round trip. The packet built from `"USRP"`, seven `uint32` header fields with
payload type 0 written big-endian, and 320 sample bytes decodes successfully; the
parsed header has `Eye = "USRP"` and exactly the seven fields (the big-endian values
of the bytes at offsets 4, 8, 12, 16, 20, 24, 28), and the extracted payload is the
sample buffer. -/
theorem build_then_decode_round_trip (stale samples : List Byte)
    (seq memory keyup talkgroup mpxid reserved : Nat)
    (hs : stale.length = packetBufLen) (hsm : samples.length = 320)
    (h1 : seq < 2 ^ 32) (h2 : memory < 2 ^ 32) (h3 : keyup < 2 ^ 32)
    (h4 : talkgroup < 2 ^ 32) (h6 : mpxid < 2 ^ 32) (h7 : reserved < 2 ^ 32) :
    (decodeDatagram stale
        (buildPacket seq memory keyup talkgroup USRP_TYPE_VOICE mpxid reserved samples)).result
      = .Voice ⟨usrpEye, seq, memory, keyup, talkgroup, USRP_TYPE_VOICE, mpxid, reserved⟩ samples
    ∧ parsedHeader
        (buildPacket seq memory keyup talkgroup USRP_TYPE_VOICE mpxid reserved samples)
      = ⟨usrpEye, seq, memory, keyup, talkgroup, USRP_TYPE_VOICE, mpxid, reserved⟩
    ∧ binaryRead
        ((buildPacket seq memory keyup talkgroup USRP_TYPE_VOICE mpxid reserved samples).take
          headerSize)
      = some ⟨usrpEye, seq, memory, keyup, talkgroup, USRP_TYPE_VOICE, mpxid, reserved⟩ := by
  have hp := parsedHeader_buildPacket seq memory keyup talkgroup USRP_TYPE_VOICE mpxid
    reserved samples h1 h2 h3 h4 (by decide) h6 h7
  have hl := buildPacket_length seq memory keyup talkgroup USRP_TYPE_VOICE mpxid reserved
    samples
  have hv : isVoiceDatagram
      (buildPacket seq memory keyup talkgroup USRP_TYPE_VOICE mpxid reserved samples) := by
    refine (isVoiceDatagram_iff _).2 ⟨by omega, ?_, ?_⟩
    · rw [← parsedHeader_Eye, hp]
    · rw [← parsedHeader_Type, hp]; rfl
  refine ⟨?_, hp, ?_⟩
  · rw [decodeDatagram_voice stale _ hs hv, hp,
      buildPacket_payload seq memory keyup talkgroup USRP_TYPE_VOICE mpxid reserved samples hsm]
  · have hlen : ((buildPacket seq memory keyup talkgroup USRP_TYPE_VOICE mpxid reserved
        samples).take 32).length = 32 := by
      simp only [List.length_take]; omega
    rw [← hp]
    simp [binaryRead, headerSize, usrpHeaderWireSize, hlen, parsedHeader, beUint32_take,
      List.take_take]

/-- C6 at the scenario packet `seq=1, mem=0, keyup=1, tg=100` with 320 zero bytes. -/
theorem build_then_decode_round_trip_witness :
    initState.packetBuf.length = packetBufLen
      ∧ (List.replicate 320 (0 : Byte)).length = 320
      ∧ (decodeDatagram initState.packetBuf
          (buildPacket 1 0 1 100 USRP_TYPE_VOICE 0 0 (List.replicate 320 0))).result
        = .Voice ⟨usrpEye, 1, 0, 1, 100, USRP_TYPE_VOICE, 0, 0⟩ (List.replicate 320 0) :=
  ⟨by decide, by decide,
    (build_then_decode_round_trip initState.packetBuf (List.replicate 320 0) 1 0 1 100 0 0
      (by decide) (by decide) (by decide) (by decide) (by decide) (by decide) (by decide)
      (by decide)).1⟩

/-! ## The loop -/

/-- The invariant of the loop: it is at its head and the buffer has its 1024 bytes. -/
theorem step_invariant (s : LoopState) (e : Event) (hc : s.ctl = .AwaitingPacket)
    (hs : s.packetBuf.length = packetBufLen) :
    (step s e).ctl = .AwaitingPacket ∧ (step s e).packetBuf.length = packetBufLen := by
  obtain ⟨recv, ok⟩ := e
  cases recv with
  | error => simp only [step, loopBody, hc]; exact ⟨trivial, hs⟩
  | datagram d =>
    by_cases hv : isVoiceDatagram d
    · simp only [step, loopBody_voice s d ok hc hs hv, readFromUDP_length, hs, and_self]
    · simp only [step, loopBody_not_voice s d ok hc hs hv, readFromUDP_length, hs, and_self]

theorem run_invariant (es : List Event) (s : LoopState) (hc : s.ctl = .AwaitingPacket)
    (hs : s.packetBuf.length = packetBufLen) :
    (run s es).ctl = .AwaitingPacket ∧ (run s es).packetBuf.length = packetBufLen := by
  induction es generalizing s with
  | nil => exact ⟨hc, hs⟩
  | cons e es ih =>
    have h := step_invariant s e hc hs
    simpa [run] using ih (step s e) h.1 h.2

/-- What an iteration does is determined by its event alone, not by the state in
which the loop is entered. -/
theorem loopBody_independent (s1 s2 : LoopState) (e : Event)
    (hc1 : s1.ctl = .AwaitingPacket) (hs1 : s1.packetBuf.length = packetBufLen)
    (hc2 : s2.ctl = .AwaitingPacket) (hs2 : s2.packetBuf.length = packetBufLen) :
    (loopBody s1 e).2 = (loopBody s2 e).2 := by
  obtain ⟨recv, ok⟩ := e
  cases recv with
  | error => simp only [loopBody, hc1, hc2]
  | datagram d =>
    by_cases hv : isVoiceDatagram d
    · rw [loopBody_voice s1 d ok hc1 hs1 hv, loopBody_voice s2 d ok hc2 hs2 hv]
    · rw [loopBody_not_voice s1 d ok hc1 hs1 hv, loopBody_not_voice s2 d ok hc2 hs2 hv,
        decodeDatagram_eq s1.packetBuf d hs1, decodeDatagram_eq s2.packetBuf d hs2]

/-- C7: sequencing. When every received datagram is a well-formed voice datagram,
the arguments handed to `player.Write` during the run are exactly the payloads
`[32:352)` of the datagrams, in the order of reception: one write of 320 bytes per
datagram, whether or not the writes succeed. -/
theorem writes_follow_reception_order (ds : List (List Byte × Bool)) (s : LoopState)
    (hc : s.ctl = .AwaitingPacket) (hs : s.packetBuf.length = packetBufLen)
    (hv : ∀ p ∈ ds, isVoiceDatagram p.1) :
    (run s (eventsOf ds)).written
        = s.written ++ ds.map (fun p => (p.1.take 352).drop 32)
      ∧ (run s (eventsOf ds)).written.length = s.written.length + ds.length
      ∧ ∀ p ∈ ds, ((p.1.take 352).drop 32).length = 320 := by
  have hw : (run s (eventsOf ds)).written
      = s.written ++ ds.map (fun p => (p.1.take 352).drop 32) := by
    induction ds generalizing s with
    | nil => simp [run, eventsOf]
    | cons p ds ih =>
      have hp : isVoiceDatagram p.1 := hv p (List.mem_cons_self _ _)
      have hi := step_invariant s ⟨.datagram p.1, p.2⟩ hc hs
      have hstep : (step s ⟨.datagram p.1, p.2⟩).written
          = s.written ++ [(p.1.take 352).drop 32] := by
        simp only [step, loopBody_voice s p.1 p.2 hc hs hp]
      have := ih (step s ⟨.datagram p.1, p.2⟩) hi.1 hi.2
        (fun q hq => hv q (List.mem_cons_of_mem _ hq))
      simp only [eventsOf, List.map_cons, run, List.foldl_cons] at this ⊢
      rw [this, hstep, List.append_assoc]
      rfl
  refine ⟨hw, ?_, ?_⟩
  · rw [hw]; simp
  · intro p hp
    exact voicePayload_length p.1 ((isVoiceDatagram_iff p.1).1 (hv p hp)).1

/-- C7 at two voice datagrams received with sequence numbers 2 then 1, the second
write failing: the payloads are written in the order of reception. -/
theorem writes_follow_reception_order_witness :
    initState.ctl = .AwaitingPacket ∧ initState.packetBuf.length = packetBufLen
      ∧ (∀ p ∈ outOfOrderPair, isVoiceDatagram p.1)
      ∧ (run initState (eventsOf outOfOrderPair)).written
          = initState.written ++ outOfOrderPair.map (fun p => (p.1.take 352).drop 32)
      ∧ (run initState (eventsOf outOfOrderPair)).written
          = [List.replicate 320 1, List.replicate 320 0] :=
  have h := writes_follow_reception_order outOfOrderPair initState rfl (by decide) (by decide)
  ⟨rfl, by decide, by decide, h.1, by decide⟩

/-- C8: in an iteration that receives the datagram `d`, `player.Write` is called if
and only if `d` is a well-formed voice datagram (at least 352 bytes, signature
`"USRP"`, payload type 0), which is also exactly when the decode step succeeds; it is
then called once, with the 320 bytes `[32:352)` of `d`. For every other datagram
(too short, bad signature, non-voice, incomplete payload) and for a failed receive
no write is made. The 352-byte scenario packet with type 0 causes one write of 320
zero bytes; the scenario packet with type 1 is a `NonVoicePacket` and causes none. -/
theorem write_iff_voice_datagram (s : LoopState) (d : List Byte) (ok : Bool)
    (hc : s.ctl = .AwaitingPacket) (hs : s.packetBuf.length = packetBufLen) :
    (((loopBody s ⟨.datagram d, ok⟩).2.writeArg ≠ none) ↔ isVoiceDatagram d)
      ∧ ((∃ hdr v, (loopBody s ⟨.datagram d, ok⟩).2.decoded = some (.Voice hdr v))
          ↔ isVoiceDatagram d)
      ∧ (isVoiceDatagram d →
          (loopBody s ⟨.datagram d, ok⟩).2.writeArg = some ((d.take 352).drop 32)
            ∧ ((d.take 352).drop 32).length = 320
            ∧ (step s ⟨.datagram d, ok⟩).written = s.written ++ [(d.take 352).drop 32])
      ∧ (¬ isVoiceDatagram d →
          (loopBody s ⟨.datagram d, ok⟩).2.writeArg = none
            ∧ (step s ⟨.datagram d, ok⟩).written = s.written
            ∧ ((loopBody s ⟨.datagram d, ok⟩).2.decoded = some .TooShortForHeader
              ∨ (loopBody s ⟨.datagram d, ok⟩).2.decoded = some .BadSignature
              ∨ (loopBody s ⟨.datagram d, ok⟩).2.decoded = some .NonVoicePacket
              ∨ (loopBody s ⟨.datagram d, ok⟩).2.decoded = some .IncompletePayload))
      ∧ ((loopBody s ⟨.error, ok⟩).2.writeArg = none
          ∧ (step s ⟨.error, ok⟩).written = s.written)
      ∧ ((loopBody s ⟨.datagram (scenarioPacket 0), ok⟩).2.writeArg
            = some (List.replicate 320 0)
          ∧ (step s ⟨.datagram (scenarioPacket 0), ok⟩).written
            = s.written ++ [List.replicate 320 0])
      ∧ ((loopBody s ⟨.datagram (scenarioPacket 1), ok⟩).2.decoded = some .NonVoicePacket
          ∧ (loopBody s ⟨.datagram (scenarioPacket 1), ok⟩).2.writeArg = none
          ∧ (step s ⟨.datagram (scenarioPacket 1), ok⟩).written = s.written) := by
  have hvoice : ∀ x : List Byte, isVoiceDatagram x →
      (loopBody s ⟨.datagram x, ok⟩).2.writeArg = some ((x.take 352).drop 32)
        ∧ ((x.take 352).drop 32).length = 320
        ∧ (step s ⟨.datagram x, ok⟩).written = s.written ++ [(x.take 352).drop 32] := by
    intro x hx
    refine ⟨?_, voicePayload_length x ((isVoiceDatagram_iff x).1 hx).1, ?_⟩ <;>
      simp only [step, loopBody_voice s x ok hc hs hx]
  have hother : ∀ x : List Byte, ¬ isVoiceDatagram x →
      (loopBody s ⟨.datagram x, ok⟩).2.writeArg = none
        ∧ (step s ⟨.datagram x, ok⟩).written = s.written
        ∧ (loopBody s ⟨.datagram x, ok⟩).2.decoded
            = some (decodeDatagram s.packetBuf x).result := by
    intro x hx
    refine ⟨?_, ?_, ?_⟩ <;> simp only [step, loopBody_not_voice s x ok hc hs hx]
  have h0 : isVoiceDatagram (scenarioPacket 0) := by decide
  have h1 : ¬ isVoiceDatagram (scenarioPacket 1) := by decide
  have p0 : ((scenarioPacket 0).take 352).drop 32 = List.replicate 320 0 := by decide
  refine ⟨?_, ?_, hvoice d, ?_, ?_, ?_, ?_⟩
  · by_cases hv : isVoiceDatagram d
    · simp [(hvoice d hv).1, hv]
    · simp [(hother d hv).1, hv]
  · by_cases hv : isVoiceDatagram d
    · simp only [loopBody_voice s d ok hc hs hv, hv, iff_true]
      exact ⟨_, _, rfl⟩
    · simp only [hv, iff_false]
      rintro ⟨hdr, v, h⟩
      rw [(hother d hv).2.2] at h
      rcases decodeDatagram_not_voice s.packetBuf d hs hv with e | e | e | e <;>
        rw [e] at h <;> simp at h
  · intro hv
    refine ⟨(hother d hv).1, (hother d hv).2.1, ?_⟩
    rw [(hother d hv).2.2]
    rcases decodeDatagram_not_voice s.packetBuf d hs hv with e | e | e | e <;> simp [e]
  · simp only [step, loopBody, hc, and_self]
  · have := hvoice (scenarioPacket 0) h0
    rw [p0] at this
    exact ⟨this.1, this.2.2⟩
  · have h := hother (scenarioPacket 1) h1
    refine ⟨?_, h.1, h.2.1⟩
    rw [h.2.2, decodeDatagram_eq s.packetBuf _ hs]
    decide

/-- C8 at the initial state with the 10-byte datagram of the scenarios. -/
theorem write_iff_voice_datagram_witness :
    initState.ctl = .AwaitingPacket ∧ initState.packetBuf.length = packetBufLen
      ∧ (loopBody initState ⟨.datagram (List.replicate 10 0), true⟩).2.writeArg = none
      ∧ (loopBody initState ⟨.datagram (scenarioPacket 0), true⟩).2.writeArg
          = some (List.replicate 320 0)
      ∧ (step initState ⟨.datagram (scenarioPacket 0), true⟩).written
          = initState.written ++ [List.replicate 320 0] :=
  have h := write_iff_voice_datagram initState (List.replicate 10 0) true rfl (by decide)
  ⟨rfl, by decide, (h.2.2.2.1 (by decide)).1, h.2.2.2.2.2.1.1, h.2.2.2.2.2.1.2⟩

/-- C9: no recoverable event ends the loop or affects later packets. From the head
of the loop every iteration (failed receive, too-short datagram, bad signature,
non-voice packet, incomplete payload, failed or successful write) leads back to the
head of the loop with the buffer intact, and so does every finite run; and what the
next iteration does (decode result, whether and with which bytes `player.Write` is
called, whether that call fails) is the same after any two previous iterations. -/
theorem loop_returns_to_awaiting (s : LoopState) (e : Event)
    (hc : s.ctl = .AwaitingPacket) (hs : s.packetBuf.length = packetBufLen) :
    (step s e).ctl = .AwaitingPacket
      ∧ (step s e).packetBuf.length = packetBufLen
      ∧ (∀ es : List Event, (run s es).ctl = .AwaitingPacket)
      ∧ (∀ prev1 prev2 next : Event,
          (loopBody (step s prev1) next).2 = (loopBody (step s prev2) next).2)
      ∧ (∀ prev next : Event, (loopBody (step s prev) next).2 = (loopBody s next).2) := by
  refine ⟨(step_invariant s e hc hs).1, (step_invariant s e hc hs).2,
    fun es => (run_invariant es s hc hs).1, ?_, ?_⟩
  · intro prev1 prev2 next
    have h1 := step_invariant s prev1 hc hs
    have h2 := step_invariant s prev2 hc hs
    exact loopBody_independent _ _ next h1.1 h1.2 h2.1 h2.2
  · intro prev next
    have h1 := step_invariant s prev hc hs
    exact loopBody_independent _ _ next h1.1 h1.2 hc hs

/-- C9 at the initial state: after a failed receive, and after a failed write, the
scenario packet is still decoded and its 320 zero bytes written. -/
theorem loop_returns_to_awaiting_witness :
    initState.ctl = .AwaitingPacket ∧ initState.packetBuf.length = packetBufLen
      ∧ (step initState ⟨.datagram (scenarioPacket 0), false⟩).ctl = .AwaitingPacket
      ∧ (loopBody (step initState ⟨.error, true⟩) ⟨.datagram (scenarioPacket 0), true⟩).2
          = (loopBody (step initState ⟨.datagram (scenarioPacket 0), false⟩)
              ⟨.datagram (scenarioPacket 0), true⟩).2 :=
  have h := loop_returns_to_awaiting initState ⟨.datagram (scenarioPacket 0), false⟩ rfl
    (by decide)
  ⟨rfl, by decide, h.1,
    h.2.2.2.1 ⟨.error, true⟩ ⟨.datagram (scenarioPacket 0), false⟩
      ⟨.datagram (scenarioPacket 0), true⟩⟩

/-- C10: the decode step reads only the bytes that were received. For a returned
length `n ≤ 1024` and two contents of the 1024-byte buffer that agree on their first
`n` bytes, the decode result (the variant, the parsed header and the payload) is the
same, and so is the header `binary.Read` parses when `n ≥ 32`; no slice expression
panics and `binary.Read` does not fail; every range read ends at or below `n` and
within the buffer; and an iteration on a datagram does the same, write argument
included, in any state of the buffer as in the initial one. -/
theorem decode_ignores_stale_bytes (b1 b2 : List Byte) (n : Nat)
    (h1 : b1.length = packetBufLen) (h2 : b2.length = packetBufLen) (hn : n ≤ packetBufLen)
    (h : b1.take n = b2.take n) :
    decode b1 n = decode b2 n
      ∧ (32 ≤ n →
          (goSlice b1 0 headerSize).bind binaryRead = (goSlice b2 0 headerSize).bind binaryRead
            ∧ (goSlice b1 0 headerSize).bind binaryRead = some (parsedHeader (b1.take n)))
      ∧ (decode b1 n).result ≠ .SlicePanic
      ∧ (decode b1 n).result ≠ .HeaderReadError
      ∧ (∀ r ∈ (decode b1 n).reads, r.1 ≤ r.2 ∧ r.2 ≤ n ∧ r.2 ≤ b1.length)
      ∧ (∀ (s : LoopState) (d : List Byte) (ok : Bool), s.ctl = .AwaitingPacket →
          s.packetBuf.length = packetBufLen →
          (loopBody s ⟨.datagram d, ok⟩).2 = (loopBody initState ⟨.datagram d, ok⟩).2) := by
  have hL1 : b1.length = 1024 := h1
  have hL2 : b2.length = 1024 := h2
  have hN : n ≤ 1024 := hn
  have hd := decode_eq b1 n (by omega)
  have hbind : ∀ b : List Byte, b.length = 1024 → 32 ≤ n →
      (goSlice b 0 headerSize).bind binaryRead = some (parsedHeader (b.take n)) := by
    intro b hb h32
    have hs : goSlice b 0 headerSize = some (b.take 32) := by
      rw [goSlice_of_le b 0 headerSize (Nat.zero_le _) (by simp [headerSize]; omega)]
      simp [headerSize]
    have hl : (b.take 32).length = 32 := by simp only [List.length_take]; omega
    have e : parsedHeader (b.take n) = parsedHeader b :=
      parsedHeader_congr _ _ (by rw [List.take_take]; congr 1; omega)
    rw [hs, e]
    simp [binaryRead, usrpHeaderWireSize, hl, parsedHeader, beUint32_take, List.take_take]
  refine ⟨decode_congr b1 b2 n (by omega) (by omega) h, ?_, ?_, ?_, ?_, ?_⟩
  · intro h32
    rw [hbind b1 hL1 h32, hbind b2 hL2 h32, h]
    exact ⟨rfl, rfl⟩
  · rw [hd]; split_ifs <;> simp
  · rw [hd]; split_ifs <;> simp
  · rw [hd]
    intro r hr
    split_ifs at hr <;> simp at hr
    all_goals first
      | (subst hr; simp; omega)
      | (rcases hr with hr | hr <;> subst hr <;> simp <;> omega)
  · intro s d ok hc hs
    exact loopBody_independent s initState ⟨.datagram d, ok⟩ hc hs rfl (by decide)

/-- C10 at a voice packet cut down to 40 bytes, received once into the buffer left
by an earlier 352-byte voice packet and once into a fresh buffer: both are rejected
as `IncompletePayload`, the stale payload bytes are not used. -/
theorem decode_ignores_stale_bytes_witness :
    (readFromUDP staleBuf ((scenarioPacket 0).take 40)).1.length = packetBufLen
      ∧ (readFromUDP initState.packetBuf ((scenarioPacket 0).take 40)).1.length = packetBufLen
      ∧ 40 ≤ packetBufLen
      ∧ (readFromUDP staleBuf ((scenarioPacket 0).take 40)).1.take 40
          = (readFromUDP initState.packetBuf ((scenarioPacket 0).take 40)).1.take 40
      ∧ decode (readFromUDP staleBuf ((scenarioPacket 0).take 40)).1 40
          = decode (readFromUDP initState.packetBuf ((scenarioPacket 0).take 40)).1 40
      ∧ (decode (readFromUDP staleBuf ((scenarioPacket 0).take 40)).1 40).result
          = .IncompletePayload :=
  ⟨by decide, by decide, by decide, by decide,
    (decode_ignores_stale_bytes (readFromUDP staleBuf ((scenarioPacket 0).take 40)).1
      (readFromUDP initState.packetBuf ((scenarioPacket 0).take 40)).1 40 (by decide)
      (by decide) (by decide) (by decide)).1, by decide⟩

end USRP
